import Mathlib

/-!
Shallow embedding of the auth / session / logging core of the
AutomatedHolidayMessageSender repository (an Express backend under
`backend/src` and a React frontend under `frontend/src`), together with
proofs about the embedded operations.

Pure functions of the source are translated as Lean functions; request
handlers become functions from the request data (and, where relevant, a
persistence state) to a response value plus the new state; timestamps are
integers (milliseconds or seconds since epoch, as in the source).

The `jsonwebtoken` and `express-rate-limit` npm packages are external
dependencies whose implementation is not part of the repository; where a
claim depends on their behaviour, the corresponding definitions are
modelled from the specification text (see each doc comment).
-/

namespace HolidayMailer

/-! ## Server configuration

Process-wide secrets, loaded once at startup (`backend/src/server.ts`
exits when any of them is missing). -/

structure ServerConfig where
  accessPassword : String
  jwtSecret : String
  apiKeyFrontend : String

/-! ## Session token (sign / verify) -/

/-- Decoded JWT payload, as in `AuthPayload` of
`backend/src/middleware/requireAuth.ts`: subject, role, issued-at and
expires-at (seconds since epoch). -/
structure JwtPayload where
  sub : String
  role : String
  iat : Int
  exp : Int
deriving DecidableEq, Repr

/-- Modelled from the spec: the HMAC of the `jsonwebtoken` package is not
part of the repository; the spec describes signing as deterministic with a
server-held secret and tamper-evident.  The tag is modelled as an injective
pairing of the secret with the payload fields. -/
def tokenMac (secret : String) (p : JwtPayload) : String :=
  secret ++ "#" ++ p.sub ++ "#" ++ p.role ++ "#" ++ toString p.iat ++ "#" ++ toString p.exp

/-- A structurally well-formed signed token: a payload plus a signature. -/
structure SignedToken where
  payload : JwtPayload
  sig : String
deriving DecidableEq, Repr

/-- `TOKEN_EXPIRATION_SECONDS = 8 * 60 * 60` from the auth route. -/
def tokenExpirationSeconds : Int := 8 * 60 * 60

/-- Modelled from the spec: `jwt.sign(payload, secret, {expiresIn: '8h'})`
of the external `jsonwebtoken` package sets `iat` to the current time and
`exp` to `iat` plus the TTL; the route passes `sub = "admin"`,
`role = "admin"`.  `now` is in seconds since epoch. -/
def signToken (secret : String) (now : Int) : SignedToken :=
  let p : JwtPayload :=
    { sub := "admin", role := "admin", iat := now, exp := now + tokenExpirationSeconds }
  { payload := p, sig := tokenMac secret p }

/-- Outcome of `jwt.verify`. -/
inductive VerifyResult where
  | expired
  | invalid
  | ok (p : JwtPayload)
deriving DecidableEq, Repr

/-- Modelled from the spec: the `jsonwebtoken` verify routine is not part of
the repository.  The spec: verification "fails with TokenExpired when
current time >= expires-at; fails with TokenInvalid for any other
verification failure (bad signature, malformed structure); succeeds
returning the decoded payload otherwise".  `none` stands for a token string
that does not decode to a well-formed structure. -/
def verifyToken (secret : String) (now : Int) (tok : Option SignedToken) : VerifyResult :=
  match tok with
  | none => .invalid
  | some t =>
    if t.payload.exp ≤ now then .expired
    else if t.sig = tokenMac secret t.payload then .ok t.payload
    else .invalid

/-! ## POST /auth/login (`backend/src/routes/auth.ts`) -/

/-- Response of the login route.  `token` carries the decoded form of the
issued JWT (the wire encoding is the external library again); `code` is the
machine-readable error code of the JSON body. -/
structure LoginResponse where
  status : Nat
  ok : Bool
  code : Option String
  token : Option SignedToken
  expiresIn : Option Nat
deriving DecidableEq, Repr

/-- The `router.post('/login')` handler.  `body` is the `password` field of
the parsed JSON body (`none` when absent or not a string).  The zod schema
`loginSchema` requires `password` to be a string with `.min(1)`, so an
absent or empty password is a 400 VALIDATION_ERROR before the password
comparison runs.  A mismatching password is a 401 INVALID_PASSWORD with no
token; a match issues the signed token with `expiresIn = 28800`. -/
def loginHandler (cfg : ServerConfig) (now : Int) (body : Option String) : LoginResponse :=
  match body with
  | none =>
    { status := 400, ok := false, code := some "VALIDATION_ERROR",
      token := none, expiresIn := none }
  | some password =>
    if password.length < 1 then
      { status := 400, ok := false, code := some "VALIDATION_ERROR",
        token := none, expiresIn := none }
    else if password ≠ cfg.accessPassword then
      { status := 401, ok := false, code := some "INVALID_PASSWORD",
        token := none, expiresIn := none }
    else
      { status := 200, ok := true, code := none,
        token := some (signToken cfg.jwtSecret now), expiresIn := some 28800 }

/-- Helper: a string of length zero is the empty string. -/
theorem eq_empty_of_length_zero {s : String} (h : s.length = 0) : s = "" := by
  cases s with
  | mk l =>
    cases l with
    | nil => rfl
    | cons c cs => simp [String.length] at h

/-- C1 counterexample: the empty submitted password differs from the
configured password `"hunter2"`, yet the login route answers with code
VALIDATION_ERROR (the zod `.min(1)` check fires first), not
INVALID_PASSWORD. -/
theorem login_empty_password_counterexample :
    ("" : String) ≠ "hunter2" ∧
    (loginHandler ⟨"hunter2", "s", "k"⟩ 0 (some "")).code = some "VALIDATION_ERROR" ∧
    (loginHandler ⟨"hunter2", "s", "k"⟩ 0 (some "")).code ≠ some "INVALID_PASSWORD" := by
  decide

/-- C1 (amended): for every submitted password that differs from the
configured access password the login route issues no token and fails; when
the password is non-empty the failure is 401 with code INVALID_PASSWORD,
and when it is the empty string the failure is 400 with code
VALIDATION_ERROR (the schema check fires before the comparison). -/
theorem login_wrong_password_rejected (cfg : ServerConfig) (now : Int) (p : String)
    (hne : p ≠ cfg.accessPassword) :
    (loginHandler cfg now (some p)).ok = false ∧
    (loginHandler cfg now (some p)).token = none ∧
    (p ≠ "" →
      (loginHandler cfg now (some p)).code = some "INVALID_PASSWORD" ∧
      (loginHandler cfg now (some p)).status = 401) ∧
    (p = "" →
      (loginHandler cfg now (some p)).code = some "VALIDATION_ERROR" ∧
      (loginHandler cfg now (some p)).status = 400) := by
  by_cases hp : p = ""
  · subst hp
    simp [loginHandler]
  · have hlen : ¬ p.length < 1 := by
      have : p.length ≠ 0 := fun h => hp (eq_empty_of_length_zero h)
      omega
    simp [loginHandler, hlen, hne, hp]

/-- Witness for `login_wrong_password_rejected` at a concrete input. -/
theorem login_wrong_password_rejected_witness :
    (loginHandler ⟨"pw", "s", "k"⟩ 0 (some "guess")).ok = false ∧
    (loginHandler ⟨"pw", "s", "k"⟩ 0 (some "guess")).token = none ∧
    (("guess" : String) ≠ "" →
      (loginHandler ⟨"pw", "s", "k"⟩ 0 (some "guess")).code = some "INVALID_PASSWORD" ∧
      (loginHandler ⟨"pw", "s", "k"⟩ 0 (some "guess")).status = 401) ∧
    (("guess" : String) = "" →
      (loginHandler ⟨"pw", "s", "k"⟩ 0 (some "guess")).code = some "VALIDATION_ERROR" ∧
      (loginHandler ⟨"pw", "s", "k"⟩ 0 (some "guess")).status = 400) :=
  login_wrong_password_rejected ⟨"pw", "s", "k"⟩ 0 "guess" (by decide)

/-- C2: logging in with the configured password (non-empty, as the server
refuses to start without one) answers ok with `expiresIn = 28800` and a
token; verifying that token immediately succeeds, its payload has subject
and role `"admin"`, and its expires-at equals its issued-at plus 28800
seconds. -/
theorem login_correct_password_token (cfg : ServerConfig) (now : Int)
    (hp : cfg.accessPassword ≠ "") :
    (loginHandler cfg now (some cfg.accessPassword)).ok = true ∧
    (loginHandler cfg now (some cfg.accessPassword)).status = 200 ∧
    (loginHandler cfg now (some cfg.accessPassword)).expiresIn = some 28800 ∧
    ∃ t : SignedToken,
      (loginHandler cfg now (some cfg.accessPassword)).token = some t ∧
      verifyToken cfg.jwtSecret now (some t) = .ok t.payload ∧
      t.payload.sub = "admin" ∧ t.payload.role = "admin" ∧
      t.payload.exp = t.payload.iat + 28800 := by
  have hlen : ¬ cfg.accessPassword.length < 1 := by
    have : cfg.accessPassword.length ≠ 0 :=
      fun h => hp (eq_empty_of_length_zero h)
    omega
  refine ⟨?_, ?_, ?_, signToken cfg.jwtSecret now, ?_, ?_, ?_, ?_, ?_⟩ <;>
    simp [loginHandler, hlen, signToken, verifyToken, tokenExpirationSeconds]

/-- Witness for `login_correct_password_token` at a concrete input. -/
theorem login_correct_password_token_witness :
    (loginHandler ⟨"pw", "s", "k"⟩ 0 (some "pw")).ok = true ∧
    (loginHandler ⟨"pw", "s", "k"⟩ 0 (some "pw")).status = 200 ∧
    (loginHandler ⟨"pw", "s", "k"⟩ 0 (some "pw")).expiresIn = some 28800 ∧
    ∃ t : SignedToken,
      (loginHandler ⟨"pw", "s", "k"⟩ 0 (some "pw")).token = some t ∧
      verifyToken "s" 0 (some t) = .ok t.payload ∧
      t.payload.sub = "admin" ∧ t.payload.role = "admin" ∧
      t.payload.exp = t.payload.iat + 28800 :=
  login_correct_password_token ⟨"pw", "s", "k"⟩ 0 (by decide)

/-! ## JavaScript string splitting

`String.prototype.split` with a single-character (or character-class)
separator: splits at every separator occurrence, keeping empty pieces, and
yields `[""]` on the empty string.  Embedded as a list recursion so that it
evaluates inside the kernel. -/

/-- Split a character list at every character satisfying `isSep`, keeping
empty pieces (JavaScript `split` semantics). -/
def splitCharP (isSep : Char → Bool) : List Char → List (List Char)
  | [] => [[]]
  | c :: cs =>
    if isSep c then [] :: splitCharP isSep cs
    else
      match splitCharP isSep cs with
      | [] => [[c]]
      | piece :: rest => (c :: piece) :: rest

/-- JavaScript `s.split(sep)` for a single-character separator. -/
def jsSplit (sep : Char) (s : String) : List String :=
  (splitCharP (fun c => c = sep) s.toList).map (fun cs => String.mk cs)

/-! ## Token middleware (`backend/src/middleware/requireAuth.ts`) -/

/-- Outcome of the `requireAuth` middleware: each rejection carries the
machine-readable `code` of the 401 body; `accepted` records the decoded
subject and role attached to `req.user` for downstream handlers. -/
inductive AuthOutcome where
  | missingHeader
  | invalidFormat
  | tokenExpired
  | invalidToken
  | accepted (sub role : String)
deriving DecidableEq, Repr

/-- The `try { jwt.verify ... } catch` tail of `requireAuth`: maps a
verification result to the middleware outcome (`TOKEN_EXPIRED` for a
`TokenExpiredError`, `INVALID_TOKEN` for any other verification error,
otherwise attach the payload and call through). -/
def authVerifyDispatch (secret : String) (now : Int) (tok : Option SignedToken) : AuthOutcome :=
  match verifyToken secret now tok with
  | .expired => .tokenExpired
  | .invalid => .invalidToken
  | .ok p => .accepted p.sub p.role

/-- The `requireAuth` middleware.  `header` is `req.header('Authorization')`
(`none` when absent); the guard `if (!authHeader)` of the source also treats
the empty string as missing, JavaScript falsiness.  The header is split on
single spaces (`authHeader.split(' ')`); any shape other than exactly
`["Bearer", token]` is INVALID_AUTH_FORMAT.  `decode` maps the token string
of a well-formed header to its structural decoding (`none` = malformed wire
form), abstracting the wire format of the external jwt library. -/
def requireAuth (secret : String) (now : Int) (decode : String → Option SignedToken)
    (header : Option String) : AuthOutcome :=
  match header with
  | none => .missingHeader
  | some h =>
    if h = "" then .missingHeader
    else
      let parts := jsSplit ' ' h
      if parts.length ≠ 2 ∨ parts.headD "" ≠ "Bearer" then .invalidFormat
      else authVerifyDispatch secret now (decode (parts.getD 1 ""))

/-- C3 counterexample: the empty-string header value is not of the form
`Bearer <token>` (it splits into one part, not two), yet the middleware
rejects it as MISSING_AUTH_HEADER — the JavaScript falsiness guard
`if (!authHeader)` captures it before the format check — not as
INVALID_AUTH_FORMAT. -/
theorem empty_auth_header_counterexample :
    (jsSplit ' ' "").length ≠ 2 ∧
    requireAuth "s" 0 (fun _ => none) (some "") = .missingHeader ∧
    requireAuth "s" 0 (fun _ => none) (some "") ≠ .invalidFormat := by
  refine ⟨by decide, rfl, by decide⟩

/-- C3 (amended): for every non-empty Authorization header value that is not
exactly two space-separated parts with the first literally `Bearer`, the
middleware rejects with INVALID_AUTH_FORMAT without attempting verification
(the outcome is the same for every decode function and secret); the header
`"Bearer"` alone is rejected with INVALID_AUTH_FORMAT; a missing header is
rejected with MISSING_AUTH_HEADER; the empty-string header value is treated
as missing and rejected with MISSING_AUTH_HEADER. -/
theorem auth_header_format_gate (secret : String) (now : Int)
    (decode : String → Option SignedToken) (h : String)
    (hne : h ≠ "")
    (hbad : (jsSplit ' ' h).length ≠ 2 ∨ (jsSplit ' ' h).headD "" ≠ "Bearer") :
    requireAuth secret now decode (some h) = .invalidFormat ∧
    requireAuth secret now decode (some "Bearer") = .invalidFormat ∧
    requireAuth secret now decode none = .missingHeader ∧
    requireAuth secret now decode (some "") = .missingHeader := by
  refine ⟨?_, rfl, rfl, rfl⟩
  show (if h = "" then AuthOutcome.missingHeader
    else if (jsSplit ' ' h).length ≠ 2 ∨ (jsSplit ' ' h).headD "" ≠ "Bearer" then
      AuthOutcome.invalidFormat
    else authVerifyDispatch secret now (decode ((jsSplit ' ' h).getD 1 ""))) =
      AuthOutcome.invalidFormat
  rw [if_neg hne, if_pos hbad]

/-- Witness for `auth_header_format_gate` at a concrete input. -/
theorem auth_header_format_gate_witness :
    requireAuth "s" 0 (fun _ => none) (some "Token abc") = .invalidFormat ∧
    requireAuth "s" 0 (fun _ => none) (some "Bearer") = .invalidFormat ∧
    requireAuth "s" 0 (fun _ => none) none = .missingHeader ∧
    requireAuth "s" 0 (fun _ => none) (some "") = .missingHeader :=
  auth_header_format_gate "s" 0 (fun _ => none) "Token abc" (by decide)
    (Or.inr (by decide))

/-- C4: for a well-formed header `Bearer t`, verification distinguishes the
two failure kinds: a decoded token whose expires-at is at or before the
current time yields TOKEN_EXPIRED and never INVALID_TOKEN; a structurally
malformed token yields INVALID_TOKEN, as does an unexpired token whose
signature does not verify; a well-formed, untampered, unexpired token is
accepted with the decoded subject and role attached. -/
theorem token_verify_failure_taxonomy (secret : String) (now : Int)
    (decode : String → Option SignedToken) (t : SignedToken)
    (hdec : decode "t" = some t) :
    (t.payload.exp ≤ now →
      requireAuth secret now decode (some "Bearer t") = .tokenExpired ∧
      requireAuth secret now decode (some "Bearer t") ≠ .invalidToken) ∧
    (∀ decodeBad : String → Option SignedToken, decodeBad "t" = none →
      requireAuth secret now decodeBad (some "Bearer t") = .invalidToken) ∧
    (now < t.payload.exp → t.sig ≠ tokenMac secret t.payload →
      requireAuth secret now decode (some "Bearer t") = .invalidToken) ∧
    (now < t.payload.exp → t.sig = tokenMac secret t.payload →
      requireAuth secret now decode (some "Bearer t") =
        .accepted t.payload.sub t.payload.role) := by
  have hsplit : jsSplit ' ' "Bearer t" = ["Bearer", "t"] := by decide
  refine ⟨fun hexp => ?_, fun db hdb => ?_, fun hlt hsig => ?_, fun hlt hsig => ?_⟩
  · constructor <;>
      simp [requireAuth, hsplit, authVerifyDispatch, verifyToken, hdec, hexp]
  · simp [requireAuth, hsplit, authVerifyDispatch, verifyToken, hdb]
  · have hexp : ¬ t.payload.exp ≤ now := by omega
    simp [requireAuth, hsplit, authVerifyDispatch, verifyToken, hdec, hexp, hsig]
  · have hexp : ¬ t.payload.exp ≤ now := by omega
    simp [requireAuth, hsplit, authVerifyDispatch, verifyToken, hdec, hexp, hsig]

/-- Witness for `token_verify_failure_taxonomy` at a concrete input. -/
theorem token_verify_failure_taxonomy_witness :
    (let t : SignedToken :=
      { payload := { sub := "admin", role := "admin", iat := 0, exp := 10 }, sig := "x" }
    (t.payload.exp ≤ 20 →
      requireAuth "s" 20 (fun _ => some t) (some "Bearer t") = .tokenExpired ∧
      requireAuth "s" 20 (fun _ => some t) (some "Bearer t") ≠ .invalidToken) ∧
    (∀ decodeBad : String → Option SignedToken, decodeBad "t" = none →
      requireAuth "s" 20 decodeBad (some "Bearer t") = .invalidToken) ∧
    (20 < t.payload.exp → t.sig ≠ tokenMac "s" t.payload →
      requireAuth "s" 20 (fun _ => some t) (some "Bearer t") = .invalidToken) ∧
    (20 < t.payload.exp → t.sig = tokenMac "s" t.payload →
      requireAuth "s" 20 (fun _ => some t) (some "Bearer t") =
        .accepted t.payload.sub t.payload.role)) :=
  token_verify_failure_taxonomy "s" 20
    (fun _ => some { payload := { sub := "admin", role := "admin", iat := 0, exp := 10 },
                     sig := "x" })
    { payload := { sub := "admin", role := "admin", iat := 0, exp := 10 }, sig := "x" }
    rfl

/-! ## Rate limiting (`backend/src/middleware/rateLimit.ts`) -/

/-- Per-key bucket of the rate limiter: a request count and the window
start time (milliseconds). -/
structure RateBucket where
  count : Nat
  windowStart : Nat
deriving DecidableEq, Repr

/-- Limiter configuration: window length in milliseconds and request
ceiling, the two recognized options of the source
(`windowMs := WINDOW_SEC * 1000`, `max`). -/
structure RateConfig where
  windowMs : Nat
  maxReq : Nat
deriving DecidableEq, Repr

/-- The `authRateLimiter` instance: `windowMs = WINDOW_SEC * 1000` (the
configurable window, default 60 s) with the fixed ceiling `max = 5`. -/
def authRateLimiterConfig (windowSec : Nat) : RateConfig :=
  { windowMs := windowSec * 1000, maxReq := 5 }

/-- Modelled from the spec: the counting discipline of the external
`express-rate-limit` package is not part of the repository.  Spec: the
window "holds a request count and window-start time; resets when the window
elapses"; "each request within a window increments the bucket counter;
exceeding maxRequests rejects".  One request at time `now` against the
bucket (`none` = first request from this key); returns whether the request
passes and the new bucket. -/
def rateStep (cfg : RateConfig) (bucket : Option RateBucket) (now : Nat) :
    Bool × RateBucket :=
  match bucket with
  | none => (decide (1 ≤ cfg.maxReq), { count := 1, windowStart := now })
  | some b =>
    if b.windowStart + cfg.windowMs ≤ now then
      (decide (1 ≤ cfg.maxReq), { count := 1, windowStart := now })
    else
      (decide (b.count + 1 ≤ cfg.maxReq), { count := b.count + 1, windowStart := b.windowStart })

/-- Run a sequence of same-key requests at the given times through the
limiter, collecting whether each one passes. -/
def rateRun (cfg : RateConfig) : Option RateBucket → List Nat → List Bool
  | _, [] => []
  | bucket, t :: ts =>
    let r := rateStep cfg bucket t
    r.1 :: rateRun cfg (some r.2) ts

/-- The response the auth limiter sends for a rejected request: HTTP 429
with the configured message code. -/
def authRateLimitResponse : Nat × String := (429, "AUTH_RATE_LIMIT_EXCEEDED")

/-- Modelled from the spec: outcome of one login attempt at the auth
limiter: `none` when the request passes through to the login handler,
otherwise the 429 rejection. -/
def authLimiterOutcome (passed : Bool) : Option (Nat × String) :=
  if passed then none else some authRateLimitResponse

/-- C5: six same-key login attempts inside one auth-limiter window pass the
first five and reject the sixth with HTTP 429 and code
AUTH_RATE_LIMIT_EXCEEDED; a seventh attempt after the window has elapsed is
accepted again; and in general a bucket that already counts five or more
requests rejects any further request inside its window. -/
theorem auth_rate_limit_law (w t : Nat) (hw : 0 < w) :
    rateRun (authRateLimiterConfig w) none [t, t, t, t, t, t] =
      [true, true, true, true, true, false] ∧
    authLimiterOutcome false = some (429, "AUTH_RATE_LIMIT_EXCEEDED") ∧
    rateRun (authRateLimiterConfig w) none [t, t, t, t, t, t, t + w * 1000] =
      [true, true, true, true, true, false, true] ∧
    (∀ b : RateBucket, 5 ≤ b.count → ∀ now, now < b.windowStart + w * 1000 →
      (rateStep (authRateLimiterConfig w) (some b) now).1 = false) := by
  have hin : ¬ t + w * 1000 ≤ t := by omega
  have hout : t + w * 1000 ≤ t + w * 1000 := le_refl _
  refine ⟨?_, rfl, ?_, ?_⟩
  · simp [rateRun, rateStep, authRateLimiterConfig, hin]
  · simp [rateRun, rateStep, authRateLimiterConfig, hin, hout]
  · intro b hb now hnow
    have hin2 : ¬ b.windowStart + w * 1000 ≤ now := by omega
    simp [rateStep, authRateLimiterConfig, hin2]
    omega

/-- Witness for `auth_rate_limit_law` at a concrete input. -/
theorem auth_rate_limit_law_witness :
    rateRun (authRateLimiterConfig 60) none [0, 0, 0, 0, 0, 0] =
      [true, true, true, true, true, false] ∧
    authLimiterOutcome false = some (429, "AUTH_RATE_LIMIT_EXCEEDED") ∧
    rateRun (authRateLimiterConfig 60) none [0, 0, 0, 0, 0, 0, 0 + 60 * 1000] =
      [true, true, true, true, true, false, true] ∧
    (∀ b : RateBucket, 5 ≤ b.count → ∀ now, now < b.windowStart + 60 * 1000 →
      (rateStep (authRateLimiterConfig 60) (some b) now).1 = false) :=
  auth_rate_limit_law 60 0 (by decide)

/-! ## Client session manager (`frontend/src/context/AuthContext.tsx`) -/

/-- The two browser-local entries: `localStorage` keys `jwt` and
`jwt_expiry` (the expiry as milliseconds since epoch). -/
structure ClientStorage where
  jwt : Option String
  jwtExpiry : Option Int
deriving DecidableEq, Repr

/-- What the app shell renders: `AppContent` returns the `Login` component
whenever `isAuthenticated` (that is, the in-memory token) is not set. -/
inductive ClientView where
  | loginView
  | mainView
deriving DecidableEq, Repr

/-- Result of the mount effect: the storage afterwards, the in-memory token
(`setToken`), and the HTTP calls the effect issued. -/
structure MountResult where
  storage : ClientStorage
  memToken : Option String
  apiCalls : List String
deriving DecidableEq, Repr

/-- The `AuthProvider` mount effect: read both stored entries; when both
are present, restore the token in memory if `Date.now() < expiryTime`,
otherwise remove both entries; in every branch no network request is made
(the effect body contains no `fetch`). -/
def mountEffect (now : Int) (st : ClientStorage) : MountResult :=
  match st.jwt, st.jwtExpiry with
  | some tok, some expiry =>
    if now < expiry then
      { storage := st, memToken := some tok, apiCalls := [] }
    else
      { storage := { jwt := none, jwtExpiry := none }, memToken := none, apiCalls := [] }
  | _, _ => { storage := st, memToken := none, apiCalls := [] }

/-- `AppContent`: show the login view exactly when no in-memory token is
set. -/
def renderView (memToken : Option String) : ClientView :=
  match memToken with
  | none => .loginView
  | some _ => .mainView

/-- C6: at app start with both entries stored, a stored expiry at or before
the current time makes the client discard both entries and render the login
view, with no API call; a stored expiry in the future restores the session
in memory and leaves the storage untouched, likewise with no API call. -/
theorem mount_expired_session_discarded (now : Int) (tok : String) (expiry : Int)
    (hexp : expiry ≤ now) :
    mountEffect now ⟨some tok, some expiry⟩ =
      { storage := ⟨none, none⟩, memToken := none, apiCalls := [] } ∧
    renderView (mountEffect now ⟨some tok, some expiry⟩).memToken = .loginView ∧
    (∀ expiry2 : Int, now < expiry2 →
      mountEffect now ⟨some tok, some expiry2⟩ =
        { storage := ⟨some tok, some expiry2⟩, memToken := some tok, apiCalls := [] }) := by
  have hlt : ¬ now < expiry := by omega
  refine ⟨?_, ?_, fun expiry2 h2 => ?_⟩
  · simp [mountEffect, hlt]
  · simp [mountEffect, hlt, renderView]
  · simp [mountEffect, h2]

/-- Witness for `mount_expired_session_discarded` at a concrete input. -/
theorem mount_expired_session_discarded_witness :
    mountEffect 5 ⟨some "tok", some 5⟩ =
      { storage := ⟨none, none⟩, memToken := none, apiCalls := [] } ∧
    renderView (mountEffect 5 ⟨some "tok", some 5⟩).memToken = .loginView ∧
    (∀ expiry2 : Int, 5 < expiry2 →
      mountEffect 5 ⟨some "tok", some expiry2⟩ =
        { storage := ⟨some "tok", some expiry2⟩, memToken := some "tok", apiCalls := [] }) :=
  mount_expired_session_discarded 5 "tok" 5 (by decide)

/-- The storage-mutating operations of the client session manager:
the success branch of `login(password)` (writes both entries), `logout()`
(removes both), the firing of the auto-logout timer or its already-expired
branch (removes both), and `handleAuthError(response)` (removes both when
the response status is 401 or 403, otherwise leaves storage alone). -/
inductive SessionOp where
  | loginSuccess (token : String) (expiry : Int)
  | logoutOp
  | autoLogoutFire
  | authError (status : Nat)
deriving DecidableEq, Repr

/-- Effect of each session-manager operation on the two stored entries,
transcribed from `AuthContext.tsx` (login lines 144-163, logout 168-173,
auto-logout effect 97-122, `handleAuthError` 232-239). -/
def applySessionOp : SessionOp → ClientStorage → ClientStorage
  | .loginSuccess t e, _ => { jwt := some t, jwtExpiry := some e }
  | .logoutOp, _ => { jwt := none, jwtExpiry := none }
  | .autoLogoutFire, _ => { jwt := none, jwtExpiry := none }
  | .authError status, st =>
    if status = 401 ∨ status = 403 then { jwt := none, jwtExpiry := none } else st

/-- C8: every session-manager operation either sets both stored entries,
removes both, or leaves the storage exactly as it was (the non-401/403 case
of `handleAuthError`); no operation touches exactly one of the two
entries. -/
theorem session_storage_pairing (op : SessionOp) (st : ClientStorage) :
    (∃ t e, applySessionOp op st = { jwt := some t, jwtExpiry := some e }) ∨
    applySessionOp op st = { jwt := none, jwtExpiry := none } ∨
    applySessionOp op st = st := by
  cases op with
  | loginSuccess t e => exact Or.inl ⟨t, e, rfl⟩
  | logoutOp => exact Or.inr (Or.inl rfl)
  | autoLogoutFire => exact Or.inr (Or.inl rfl)
  | authError status =>
    by_cases hs : status = 401 ∨ status = 403
    · exact Or.inr (Or.inl (by simp [applySessionOp, hs]))
    · exact Or.inr (Or.inr (by simp [applySessionOp, hs]))

/-! ## Frontend form validation (`frontend/src/lib/validation.ts`) -/

/-- The character class `\s` of the JavaScript regexes and the whitespace
set of `String.prototype.trim`, restricted to the ASCII range the form
deals with. -/
def jsIsSpace (c : Char) : Bool :=
  c = ' ' || c = '\t' || c = '\n' || c = '\r' || c = '\x0b' || c = '\x0c'

/-- JavaScript `trim` on a character list: drop whitespace from both
ends. -/
def jsTrimList (l : List Char) : List Char :=
  ((l.dropWhile jsIsSpace).reverse.dropWhile jsIsSpace).reverse

/-- JavaScript `s.trim()`. -/
def jsTrim (s : String) : String := String.mk (jsTrimList s.toList)

/-- `isValidEmail`: trim, then test against `^[^\s@]+@[^\s@]+\.[^\s@]+$`.
The regex is equivalent to: no whitespace anywhere, exactly one `@`, a
non-empty local part, and a `.` somewhere strictly inside the domain part
(at least one non-`@` non-space character on each side of it, dots
themselves being allowed in both surrounding runs). -/
def isValidEmail (email : String) : Bool :=
  let s := jsTrimList email.toList
  let localPart := s.takeWhile (fun c => c ≠ '@')
  let rest := s.dropWhile (fun c => c ≠ '@')
  s.all (fun c => ! jsIsSpace c) &&
  s.count '@' == 1 &&
  decide (1 ≤ localPart.length) &&
  (match rest with
   | _ :: domain => ((domain.drop 1).dropLast).contains '.'
   | [] => false)

/-- Separator class of `extractEmails`: the regex `[,\n]+` splits on runs
of commas and newlines. -/
def isRecipientSep (c : Char) : Bool := c = ',' || c = '\n'

/-- `extractEmails`: split the raw string on commas/newlines, trim each
piece, drop empty pieces.  (Splitting on every separator character and then
dropping empties yields the same list as splitting on separator runs, since
the extra pieces a run produces are empty.) -/
def extractEmails (raw : String) : List String :=
  ((splitCharP isRecipientSep raw.toList).map (fun cs => String.mk (jsTrimList cs))).filter
    (fun e => e.length > 0)

/-- Form field values, as in the `FormFields` interface. -/
structure FormFields where
  holidayName : String
  tone : String
  audienceType : String
  language : String
  senderName : String
  recipients : String
deriving DecidableEq, Repr

/-- The per-field errors `validateForm` can record; `none` means no error
for that field. -/
structure ValidationErrors where
  holidayName : Option String
  senderName : Option String
  recipients : Option String
deriving DecidableEq, Repr

/-- `valid` of the `ValidationResult`: the errors record is empty. -/
def ValidationErrors.valid (e : ValidationErrors) : Bool :=
  e.holidayName.isNone && e.senderName.isNone && e.recipients.isNone

/-- `validateForm`: holiday name and sender name must be non-blank;
recipients must be non-blank, extract to a non-empty list, and at least one
extracted entry must look like a valid email. -/
def validateForm (fields : FormFields) : ValidationErrors :=
  { holidayName :=
      if jsTrim fields.holidayName = "" then some "Holiday name is required." else none,
    senderName :=
      if jsTrim fields.senderName = "" then some "Sender name is required." else none,
    recipients :=
      if jsTrim fields.recipients = "" then some "At least one recipient email is required."
      else
        let emails := extractEmails fields.recipients
        if emails.length = 0 then some "At least one recipient email is required."
        else if emails.any isValidEmail then none
        else some "Please enter at least one valid email address." }

/-- Helper: a character list that trims to empty is all whitespace. -/
theorem all_space_of_jsTrimList_eq_nil {l : List Char} (h : jsTrimList l = []) :
    ∀ c ∈ l, jsIsSpace c = true := by
  unfold jsTrimList at h
  rw [List.reverse_eq_nil_iff, List.dropWhile_eq_nil_iff] at h
  intro c hc
  have hsplit : c ∈ l.takeWhile jsIsSpace ++ l.dropWhile jsIsSpace := by
    rw [List.takeWhile_append_dropWhile]; exact hc
  rcases List.mem_append.mp hsplit with h1 | h1
  · exact List.mem_takeWhile_imp h1
  · exact h c (List.mem_reverse.mpr h1)

/-- Helper: an all-whitespace character list trims to empty. -/
theorem jsTrimList_eq_nil_of_all_space {l : List Char} (h : ∀ c ∈ l, jsIsSpace c = true) :
    jsTrimList l = [] := by
  unfold jsTrimList
  rw [List.reverse_eq_nil_iff, List.dropWhile_eq_nil_iff]
  intro x hx
  exact h x ((List.dropWhile_sublist _).subset (List.mem_reverse.mp hx))

/-- Helper: `splitCharP` never produces the empty list of pieces. -/
theorem splitCharP_ne_nil (isSep : Char → Bool) (l : List Char) :
    splitCharP isSep l ≠ [] := by
  cases l with
  | nil => simp [splitCharP]
  | cons c cs =>
    rw [splitCharP]
    by_cases h : isSep c
    · simp [h]
    · simp only [h, if_false]
      rcases hs : splitCharP isSep cs with _ | ⟨p, r⟩ <;> simp

/-- Helper: every character of every piece of `splitCharP` occurs in the
input and is not a separator. -/
theorem splitCharP_pieces {isSep : Char → Bool} :
    ∀ l : List Char, ∀ piece ∈ splitCharP isSep l, ∀ c ∈ piece,
      c ∈ l ∧ isSep c = false := by
  intro l
  induction l with
  | nil =>
    intro piece hp c hc
    simp [splitCharP] at hp
    subst hp
    simp at hc
  | cons a as ih =>
    intro piece hp c hc
    rw [splitCharP] at hp
    by_cases ha : isSep a
    · rw [if_pos ha] at hp
      rcases List.mem_cons.mp hp with h1 | h1
      · subst h1; simp at hc
      · have h2 := ih piece h1 c hc
        exact ⟨List.mem_cons_of_mem _ h2.1, h2.2⟩
    · rw [if_neg ha] at hp
      rcases hs : splitCharP isSep as with _ | ⟨p, rest⟩
      · exact absurd hs (splitCharP_ne_nil isSep as)
      · rw [hs] at hp
        rcases List.mem_cons.mp hp with h1 | h1
        · subst h1
          rcases List.mem_cons.mp hc with h2 | h2
          · subst h2; exact ⟨List.mem_cons_self _ _, by simpa using ha⟩
          · have h3 := ih p (by rw [hs]; exact List.mem_cons_self _ _) c h2
            exact ⟨List.mem_cons_of_mem _ h3.1, h3.2⟩
        · have h3 := ih piece (by rw [hs]; exact List.mem_cons_of_mem _ h1) c hc
          exact ⟨List.mem_cons_of_mem _ h3.1, h3.2⟩

/-- Helper: a recipients string that trims to blank extracts no emails
(every split piece is all whitespace, so it trims away and is filtered). -/
theorem extractEmails_eq_nil_of_blank {raw : String} (h : jsTrim raw = "") :
    extractEmails raw = [] := by
  have hnil : jsTrimList raw.toList = [] := by
    have := congrArg String.data h
    simpa [jsTrim] using this
  have hall : ∀ c ∈ raw.toList, jsIsSpace c = true :=
    all_space_of_jsTrimList_eq_nil hnil
  unfold extractEmails
  rw [List.filter_eq_nil_iff]
  intro e he
  rcases List.mem_map.mp he with ⟨piece, hpiece, rfl⟩
  have hps : ∀ c ∈ piece, jsIsSpace c = true := by
    intro c hc
    exact hall c (splitCharP_pieces raw.toList piece hpiece c hc).1
  have : jsTrimList piece = [] := jsTrimList_eq_nil_of_all_space hps
  simp [this, String.length]

/-- C10: client-side validation accepts mixed recipient lists: whenever the
holiday and sender names are non-blank and at least one extracted recipient
entry matches the email regex, `validateForm` reports the form valid, even
if other extracted entries are not valid emails; and `extractEmails` keeps
invalid entries rather than filtering them, as the concrete mixed list
shows. -/
theorem validateForm_mixed_recipients (fields : FormFields)
    (h1 : jsTrim fields.holidayName ≠ "")
    (h2 : jsTrim fields.senderName ≠ "")
    (h3 : (extractEmails fields.recipients).any isValidEmail = true) :
    (validateForm fields).valid = true ∧
    extractEmails "a@b.com, not-an-email" = ["a@b.com", "not-an-email"] ∧
    isValidEmail "a@b.com" = true ∧
    isValidEmail "not-an-email" = false := by
  refine ⟨?_, by decide, by decide, by decide⟩
  have hrec : ¬ jsTrim fields.recipients = "" := by
    intro h0
    rw [extractEmails_eq_nil_of_blank h0] at h3
    simp at h3
  have hnonnil : extractEmails fields.recipients ≠ [] := by
    intro h0; rw [h0] at h3; simp at h3
  have hlen : ¬ (extractEmails fields.recipients).length = 0 := by
    simpa [List.length_eq_zero] using hnonnil
  simp [validateForm, ValidationErrors.valid, h1, h2, hrec, hlen, h3]

/-- Witness for `validateForm_mixed_recipients` at a concrete input. -/
theorem validateForm_mixed_recipients_witness :
    (validateForm
      { holidayName := "Christmas", tone := "", audienceType := "business",
        language := "en", senderName := "Jane",
        recipients := "a@b.com, not-an-email" }).valid = true ∧
    extractEmails "a@b.com, not-an-email" = ["a@b.com", "not-an-email"] ∧
    isValidEmail "a@b.com" = true ∧
    isValidEmail "not-an-email" = false :=
  validateForm_mixed_recipients
    { holidayName := "Christmas", tone := "", audienceType := "business",
      language := "en", senderName := "Jane",
      recipients := "a@b.com, not-an-email" }
    (by decide) (by decide) (by decide)

/-! ## Form submission (`frontend/src/components/Form.tsx`) -/

/-- JavaScript `x || d` on strings: the default when `x` is empty
(falsy). -/
def orDefault (s d : String) : String := if s = "" then d else s

/-- JavaScript `x || null` on strings: `null` when `x` is empty. -/
def orNull (s : String) : Option String := if s = "" then none else some s

/-- The JSON body sent to the n8n webhook (`WebhookPayload` interface):
trimmed holiday and sender names, tone defaulting to `"warm"`, and the raw
recipients string. -/
structure WebhookPayload where
  holiday_name : String
  tone : String
  sender_name : String
  audience_type : String
  language : String
  recipients : String
deriving DecidableEq, Repr

/-- The body of the best-effort `logEmailBatch` call (`LogBatchPayload`
interface): the recipients as the extracted array, `tone`, `audienceType`
and `language` mapped through `|| null`. -/
structure LogBatchPayload where
  holidayName : String
  tone : Option String
  audienceType : Option String
  language : Option String
  senderName : String
  recipients : List String
  status : String
  errorMessage : Option String
deriving DecidableEq, Repr

/-- The submission state the form renders: the success and error states
show the corresponding banner. -/
inductive Submission where
  | idle
  | submitting
  | success (msg : String)
  | error (msg : String)
deriving DecidableEq, Repr

/-- What the un-awaited `logEmailBatch(...)` call eventually does, as a
function of the response status of the logging endpoint (`none` = network
error): log the batch id, warn on an HTTP failure, or purge the stored
credentials and log out on 401/403; in no case does it touch the
submission state. -/
inductive LogCallOutcome where
  | logged
  | warnedHttp (status : Nat)
  | purgedAuth
  | warnedNetwork
deriving DecidableEq, Repr

/-- `logEmailBatch` of `Form.tsx`: inspect the response of the best-effort
POST to `/api/log-email-batch`; the whole body is wrapped in try/catch and
only warns, purges credentials on 401/403 (`handleAuthError` plus the
`onAuthError` logout callback). -/
def logEmailBatch (resp : Option Nat) : LogCallOutcome :=
  match resp with
  | none => .warnedNetwork
  | some status =>
    if 200 ≤ status ∧ status < 300 then .logged
    else if status = 401 ∨ status = 403 then .purgedAuth
    else .warnedHttp status

/-- Response of the webhook POST as the form observes it. -/
inductive WebhookResponse where
  | ok
  | httpError (status : Nat) (body : String)
  | networkError
deriving DecidableEq, Repr

/-- Everything `handleSubmit` does, as observable data: the webhook call it
makes (none when validation fails), the `logEmailBatch` body it issues, the
eventual outcome of that un-awaited call, and the submission state it
leaves the form in. -/
structure SubmitResult where
  webhookCall : Option WebhookPayload
  logCall : Option LogBatchPayload
  logOutcome : Option LogCallOutcome
  submission : Submission
deriving DecidableEq, Repr

/-- `handleSubmit` of `Form.tsx`: validate; on success build the webhook
payload (tone defaulting to `"warm"`, recipients as the raw string) and
POST it; on a 2xx response fire the best-effort log call with status
`"sent"` and the extracted recipients array and set the success banner; on
an HTTP or network failure fire the log call with status `"error"` and set
the error banner.  `logResp` is the eventual response of the un-awaited
log call; it feeds only `logOutcome`, never the submission state. -/
def handleSubmit (fields : FormFields) (resp : WebhookResponse) (logResp : Option Nat) :
    SubmitResult :=
  if (validateForm fields).valid = false then
    { webhookCall := none, logCall := none, logOutcome := none, submission := .idle }
  else
    let emailsArray := extractEmails fields.recipients
    let payload : WebhookPayload :=
      { holiday_name := jsTrim fields.holidayName,
        tone := orDefault (jsTrim fields.tone) "warm",
        sender_name := jsTrim fields.senderName,
        audience_type := fields.audienceType,
        language := fields.language,
        recipients := fields.recipients }
    match resp with
    | .ok =>
      { webhookCall := some payload,
        logCall := some
          { holidayName := jsTrim fields.holidayName,
            tone := orNull (jsTrim fields.tone),
            audienceType := orNull fields.audienceType,
            language := orNull fields.language,
            senderName := jsTrim fields.senderName,
            recipients := emailsArray,
            status := "sent", errorMessage := none },
        logOutcome := some (logEmailBatch logResp),
        submission := .success "Request accepted! Emails will be generated and sent." }
    | .httpError status body =>
      { webhookCall := some payload,
        logCall := some
          { holidayName := jsTrim fields.holidayName,
            tone := orNull (jsTrim fields.tone),
            audienceType := orNull fields.audienceType,
            language := orNull fields.language,
            senderName := jsTrim fields.senderName,
            recipients := emailsArray,
            status := "error",
            errorMessage := some ("HTTP " ++ toString status ++
              (if body = "" then "" else ": " ++ body)) },
        logOutcome := some (logEmailBatch logResp),
        submission := .error ("Server error (HTTP " ++ toString status ++ ")" ++
          (if body = "" then "" else ": " ++ body)) }
    | .networkError =>
      { webhookCall := some payload,
        logCall := some
          { holidayName := jsTrim fields.holidayName,
            tone := orNull (jsTrim fields.tone),
            audienceType := orNull fields.audienceType,
            language := orNull fields.language,
            senderName := jsTrim fields.senderName,
            recipients := emailsArray,
            status := "error",
            errorMessage := some "Network error: Unable to reach automation server" },
        logOutcome := some (logEmailBatch logResp),
        submission := .error "Unable to reach the automation server. Is n8n running?" }

/-- The concrete form of the C7 scenario. -/
def christmasFields : FormFields :=
  { holidayName := "Christmas", tone := "", audienceType := "business",
    language := "en", senderName := "Jane", recipients := "a@b.com" }

/-- C7: submitting the valid Christmas form sends the webhook exactly the
payload with tone defaulted to `"warm"` and the raw recipients string; on a
2xx webhook response the best-effort log call is issued with status
`"sent"` and recipients `["a@b.com"]`, and the form shows the success
banner whatever the log call eventually returns (success, HTTP failure or
network failure alike). -/
theorem submit_christmas_webhook_and_log (logResp : Option Nat) :
    (handleSubmit christmasFields .ok logResp).webhookCall =
      some { holiday_name := "Christmas", tone := "warm", sender_name := "Jane",
             audience_type := "business", language := "en", recipients := "a@b.com" } ∧
    (handleSubmit christmasFields .ok logResp).logCall =
      some { holidayName := "Christmas", tone := none, audienceType := some "business",
             language := some "en", senderName := "Jane", recipients := ["a@b.com"],
             status := "sent", errorMessage := none } ∧
    (handleSubmit christmasFields .ok logResp).submission =
      .success "Request accepted! Emails will be generated and sent." := by
  exact ⟨rfl, rfl, rfl⟩

/-! ## POST /api/log-email-batch (`backend/src/routes/emailLogs.ts`) -/

/-- Request body of the logging endpoint, already shaped as JSON fields
(`status` is optional, the schema defaults it to `"sent"`). -/
structure LogBatchBody where
  holidayName : String
  tone : Option String
  audienceType : Option String
  language : Option String
  senderName : String
  recipients : List String
  status : Option String
  errorMessage : Option String
deriving DecidableEq, Repr

/-- The `LogEmailBatchSchema` zod checks: non-empty holiday and sender
names, at least one recipient, every recipient a valid email, and a status
from the enum when present.  `emailOk` abstracts the `.email()` validator
of the external zod package (its implementation is not part of the
repository). -/
def logBatchBodyValid (emailOk : String → Bool) (b : LogBatchBody) : Bool :=
  decide (1 ≤ b.holidayName.length) &&
  decide (1 ≤ b.senderName.length) &&
  decide (1 ≤ b.recipients.length) &&
  b.recipients.all emailOk &&
  (match b.status with
   | none => true
   | some s => s = "queued" || s = "sent" || s = "error")

/-- A persisted email batch with its recipient records, as created by
`prisma.emailBatch.create` with the nested `recipients.create`. -/
structure EmailBatchRecord where
  holidayName : String
  tone : Option String
  audienceType : Option String
  language : Option String
  senderName : String
  status : String
  errorMessage : Option String
  recipients : List String
deriving DecidableEq, Repr

/-- Response of the logging endpoint (400 on validation failure, 201 with
the recipient count on success). -/
structure LogBatchResponse where
  status : Nat
  ok : Bool
  recipientCount : Option Nat
deriving DecidableEq, Repr

/-- The `router.post('/log-email-batch')` handler: validate the body first;
on failure answer 400 and perform no database write; on success create the
batch together with its recipient records and answer 201. `db` is the list
of batches persisted so far. -/
def logEmailBatchHandler (emailOk : String → Bool) (b : LogBatchBody)
    (db : List EmailBatchRecord) : LogBatchResponse × List EmailBatchRecord :=
  if logBatchBodyValid emailOk b = false then
    ({ status := 400, ok := false, recipientCount := none }, db)
  else
    let record : EmailBatchRecord :=
      { holidayName := b.holidayName, tone := b.tone, audienceType := b.audienceType,
        language := b.language, senderName := b.senderName,
        status := b.status.getD "sent", errorMessage := b.errorMessage,
        recipients := b.recipients }
    ({ status := 201, ok := true, recipientCount := some b.recipients.length },
      db ++ [record])

/-- C9: whenever the body of POST /api/log-email-batch fails schema
validation, the handler answers 400 and the persisted state is exactly what
it was: no email batch and hence no recipient record is created, for every
email validator, body and prior database state. -/
theorem log_batch_invalid_no_side_effect (emailOk : String → Bool)
    (b : LogBatchBody) (db : List EmailBatchRecord)
    (hbad : logBatchBodyValid emailOk b = false) :
    (logEmailBatchHandler emailOk b db).1.status = 400 ∧
    (logEmailBatchHandler emailOk b db).1.ok = false ∧
    (logEmailBatchHandler emailOk b db).2 = db := by
  refine ⟨?_, ?_, ?_⟩ <;> simp [logEmailBatchHandler, hbad]

/-- Witness for `log_batch_invalid_no_side_effect` at a concrete input: a
body whose recipients list contains an entry the email validator rejects. -/
theorem log_batch_invalid_no_side_effect_witness :
    (logEmailBatchHandler (fun s => s.toList.contains '@')
      { holidayName := "Christmas", tone := none, audienceType := none,
        language := none, senderName := "Jane",
        recipients := ["a@b.com", "not-an-email"], status := some "sent",
        errorMessage := none } []).1.status = 400 ∧
    (logEmailBatchHandler (fun s => s.toList.contains '@')
      { holidayName := "Christmas", tone := none, audienceType := none,
        language := none, senderName := "Jane",
        recipients := ["a@b.com", "not-an-email"], status := some "sent",
        errorMessage := none } []).1.ok = false ∧
    (logEmailBatchHandler (fun s => s.toList.contains '@')
      { holidayName := "Christmas", tone := none, audienceType := none,
        language := none, senderName := "Jane",
        recipients := ["a@b.com", "not-an-email"], status := some "sent",
        errorMessage := none } []).2 = [] :=
  log_batch_invalid_no_side_effect (fun s => s.toList.contains '@')
    { holidayName := "Christmas", tone := none, audienceType := none,
      language := none, senderName := "Jane",
      recipients := ["a@b.com", "not-an-email"], status := some "sent",
      errorMessage := none } [] (by decide)

end HolidayMailer
